import Mathlib

/-!
Shallow embedding of the contract DbEncryptToolFHE (src/unnamed/part_000).

Modelling choices:
- Addresses, uint256 values and euint32 ciphertext handles are Nat.  The
  contract uses Solidity 0.8 checked arithmetic; the only additions are
  timestamp + cooldown and a batch counter increment, whose uint256
  overflow is unreachable for realistic values, so Nat is used without
  a modulus.
- bytes32 values relevant to the contract are modelled by the inductive
  type B32: raw words (the mapping default is B32.word 0) and
  keccak256(abi.encode(cts, addr)) as a free constructor keccakEnc,
  the standard collision-free idealization of keccak256 (in particular a
  keccak output is never the zero word).
- Storage mappings are total functions with the Solidity zero default.
- Each external function takes the ambient inputs (msg.sender as caller,
  block.timestamp as now) explicitly and returns the post state together
  with an Option Err: some e models a revert at that point, and the state
  component is whatever the function had written up to the revert, so that
  check-before-effect ordering is visible in the semantics rather than
  assumed from EVM rollback.
- FHE.requestDecryption is the external oracle: the oracle-assigned
  request id is an explicit parameter.  FHE.checkSignatures is the external
  proof verifier: a Bool parameter, reverting with Err.InvalidProof when
  false.  abi.decode(cleartexts, (uint32)) is modelled by taking the
  cleartext as a Nat and reducing it mod 2 ^ 32.
- Event emission appends to an events list in the state.
- The unused internal helpers at the end of the source file touch no
  storage and are not modelled.
-/

namespace DbFHE

/-- bytes32 values: raw machine words, or a keccak256 hash of the
abi-encoding of a handle list with an address (collision-free
idealization of keccak256). -/
inductive B32 where
  | word (n : Nat)
  | keccakEnc (cts : List Nat) (addr : Nat)
  deriving DecidableEq

/-- The DecryptionContext struct of the source. -/
structure DecryptionContext where
  batchId : Nat
  stateHash : B32
  processed : Bool
  deriving DecidableEq

/-- The declared custom errors of the contract, plus InvalidProof for the
revert raised inside the external FHE.checkSignatures call. -/
inductive Err where
  | NotOwner
  | NotProvider
  | PausedContract
  | CooldownActive
  | BatchClosedOrInvalid
  | ReplayAttempt
  | StateMismatch
  | InvalidBatchId
  | InvalidProof
  deriving DecidableEq

/-- The events declared by the contract. -/
inductive Event where
  | OwnershipTransferred (previousOwner newOwner : Nat)
  | ProviderAdded (provider : Nat)
  | ProviderRemoved (provider : Nat)
  | Paused (account : Nat)
  | Unpaused (account : Nat)
  | CooldownSecondsSet (oldCooldownSeconds newCooldownSeconds : Nat)
  | BatchOpened (batchId : Nat)
  | BatchClosed (batchId : Nat)
  | DataSubmitted (provider batchId encryptedValue : Nat)
  | DecryptionRequested (requestId batchId : Nat)
  | DecryptionCompleted (requestId batchId decryptedValue : Nat)
  deriving DecidableEq

/-- Full storage of the contract, plus the deployment address
(address(this)) and the emitted event log. -/
structure Cs where
  selfAddr : Nat
  owner : Nat
  isProvider : Nat → Bool
  paused : Bool
  cooldownSeconds : Nat
  lastSubmissionTime : Nat → Nat
  lastDecryptionRequestTime : Nat → Nat
  currentBatchId : Nat
  batchClosed : Nat → Bool
  decryptionContexts : Nat → DecryptionContext
  encryptedData : Nat → Nat
  events : List Event

/-- Pointwise mapping update, modelling a Solidity mapping store. -/
def upd {α : Type} (f : Nat → α) (k : Nat) (v : α) : Nat → α :=
  fun x => if x = k then v else f x

/-- The constructor of the contract. -/
def deploy (deployer selfAddr : Nat) : Cs :=
  { selfAddr := selfAddr
    owner := deployer
    isProvider := fun _ => false
    paused := false
    cooldownSeconds := 60
    lastSubmissionTime := fun _ => 0
    lastDecryptionRequestTime := fun _ => 0
    currentBatchId := 1
    batchClosed := fun _ => false
    decryptionContexts := fun _ => ⟨0, B32.word 0, false⟩
    encryptedData := fun _ => 0
    events := [Event.OwnershipTransferred 0 deployer, Event.BatchOpened 1] }

/-- The function _hashCiphertexts: keccak256(abi.encode(cts, address(this))). -/
def hashCiphertexts (cts : List Nat) (self : Nat) : B32 :=
  B32.keccakEnc cts self

/-- transferOwnership(newOwner), onlyOwner. -/
def transferOwnership (s : Cs) (caller newOwner : Nat) : Cs × Option Err :=
  if caller ≠ s.owner then (s, some Err.NotOwner)
  else ({ s with
          events := s.events ++ [Event.OwnershipTransferred s.owner newOwner]
          owner := newOwner }, none)

/-- addProvider(provider), onlyOwner; no-op without event when already a
provider. -/
def addProvider (s : Cs) (caller provider : Nat) : Cs × Option Err :=
  if caller ≠ s.owner then (s, some Err.NotOwner)
  else if s.isProvider provider = true then (s, none)
  else ({ s with
          isProvider := upd s.isProvider provider true
          events := s.events ++ [Event.ProviderAdded provider] }, none)

/-- removeProvider(provider), onlyOwner; no-op without event when not a
provider. -/
def removeProvider (s : Cs) (caller provider : Nat) : Cs × Option Err :=
  if caller ≠ s.owner then (s, some Err.NotOwner)
  else if s.isProvider provider = false then (s, none)
  else ({ s with
          isProvider := upd s.isProvider provider false
          events := s.events ++ [Event.ProviderRemoved provider] }, none)

/-- pause(), onlyOwner whenNotPaused. -/
def pause (s : Cs) (caller : Nat) : Cs × Option Err :=
  if caller ≠ s.owner then (s, some Err.NotOwner)
  else if s.paused = true then (s, some Err.PausedContract)
  else ({ s with
          paused := true
          events := s.events ++ [Event.Paused caller] }, none)

/-- unpause(), onlyOwner; reverts with PausedContract when not paused. -/
def unpause (s : Cs) (caller : Nat) : Cs × Option Err :=
  if caller ≠ s.owner then (s, some Err.NotOwner)
  else if s.paused = false then (s, some Err.PausedContract)
  else ({ s with
          paused := false
          events := s.events ++ [Event.Unpaused caller] }, none)

/-- setCooldownSeconds(newCooldownSeconds), onlyOwner. -/
def setCooldownSeconds (s : Cs) (caller newCooldownSeconds : Nat) : Cs × Option Err :=
  if caller ≠ s.owner then (s, some Err.NotOwner)
  else ({ s with
          events := s.events ++
            [Event.CooldownSecondsSet s.cooldownSeconds newCooldownSeconds]
          cooldownSeconds := newCooldownSeconds }, none)

/-- openNewBatch(), onlyOwner. -/
def openNewBatch (s : Cs) (caller : Nat) : Cs × Option Err :=
  if caller ≠ s.owner then (s, some Err.NotOwner)
  else ({ s with
          currentBatchId := s.currentBatchId + 1
          events := s.events ++ [Event.BatchOpened (s.currentBatchId + 1)] }, none)

/-- closeBatch(batchId), onlyOwner. -/
def closeBatch (s : Cs) (caller batchId : Nat) : Cs × Option Err :=
  if caller ≠ s.owner then (s, some Err.NotOwner)
  else if batchId = 0 ∨ s.currentBatchId < batchId ∨ s.batchClosed batchId = true then
    (s, some Err.InvalidBatchId)
  else ({ s with
          batchClosed := upd s.batchClosed batchId true
          events := s.events ++ [Event.BatchClosed batchId] }, none)

/-- submitEncryptedData(encryptedValue), onlyProvider whenNotPaused. -/
def submitEncryptedData (s : Cs) (caller encryptedValue now : Nat) : Cs × Option Err :=
  if s.isProvider caller = false then (s, some Err.NotProvider)
  else if s.paused = true then (s, some Err.PausedContract)
  else if now < s.lastSubmissionTime caller + s.cooldownSeconds then
    (s, some Err.CooldownActive)
  else if s.batchClosed s.currentBatchId = true then (s, some Err.BatchClosedOrInvalid)
  else ({ s with
          lastSubmissionTime := upd s.lastSubmissionTime caller now
          encryptedData := upd s.encryptedData s.currentBatchId encryptedValue
          events := s.events ++
            [Event.DataSubmitted caller s.currentBatchId encryptedValue] }, none)

/-- requestDecryptionForBatch(batchId), onlyProvider whenNotPaused.
requestId is the id returned by the external FHE.requestDecryption call. -/
def requestDecryptionForBatch (s : Cs) (caller batchId now requestId : Nat) :
    Cs × Option Err :=
  if s.isProvider caller = false then (s, some Err.NotProvider)
  else if s.paused = true then (s, some Err.PausedContract)
  else if now < s.lastDecryptionRequestTime caller + s.cooldownSeconds then
    (s, some Err.CooldownActive)
  else if batchId = 0 ∨ s.currentBatchId < batchId ∨ s.batchClosed batchId = false then
    (s, some Err.InvalidBatchId)
  else ({ s with
          lastDecryptionRequestTime := upd s.lastDecryptionRequestTime caller now
          decryptionContexts := upd s.decryptionContexts requestId
            ⟨batchId, hashCiphertexts [s.encryptedData batchId] s.selfAddr, false⟩
          events := s.events ++ [Event.DecryptionRequested requestId batchId] }, none)

/-- myCallback(requestId, cleartexts, proof): replay check, state-hash
check, FHE.checkSignatures (proofValid), then the mutation.  cleartexts is
the cleartext word; abi.decode to uint32 is mod 2 ^ 32. -/
def myCallback (s : Cs) (requestId cleartexts : Nat) (proofValid : Bool) :
    Cs × Option Err :=
  if (s.decryptionContexts requestId).processed = true then (s, some Err.ReplayAttempt)
  else if hashCiphertexts [s.encryptedData (s.decryptionContexts requestId).batchId]
            s.selfAddr ≠ (s.decryptionContexts requestId).stateHash then
    (s, some Err.StateMismatch)
  else if proofValid = false then (s, some Err.InvalidProof)
  else ({ s with
          decryptionContexts := upd s.decryptionContexts requestId
            { s.decryptionContexts requestId with processed := true }
          events := s.events ++
            [Event.DecryptionCompleted requestId
              (s.decryptionContexts requestId).batchId (cleartexts % 2 ^ 32)] }, none)

/-- One external call to the contract, with its ambient inputs. -/
inductive Op where
  | transferOwnership (caller newOwner : Nat)
  | addProvider (caller provider : Nat)
  | removeProvider (caller provider : Nat)
  | pause (caller : Nat)
  | unpause (caller : Nat)
  | setCooldownSeconds (caller newCooldownSeconds : Nat)
  | openNewBatch (caller : Nat)
  | closeBatch (caller batchId : Nat)
  | submitEncryptedData (caller encryptedValue now : Nat)
  | requestDecryptionForBatch (caller batchId now requestId : Nat)
  | myCallback (requestId cleartexts : Nat) (proofValid : Bool)
  deriving DecidableEq

/-- Dispatch of one external call. -/
def step (s : Cs) : Op → Cs × Option Err
  | .transferOwnership c n => transferOwnership s c n
  | .addProvider c p => addProvider s c p
  | .removeProvider c p => removeProvider s c p
  | .pause c => pause s c
  | .unpause c => unpause s c
  | .setCooldownSeconds c n => setCooldownSeconds s c n
  | .openNewBatch c => openNewBatch s c
  | .closeBatch c b => closeBatch s c b
  | .submitEncryptedData c v t => submitEncryptedData s c v t
  | .requestDecryptionForBatch c b t r => requestDecryptionForBatch s c b t r
  | .myCallback r cl p => myCallback s r cl p

/-- Concrete deployment: owner 1, contract address 100. -/
def s0 : Cs := deploy 1 100

/-- s0 after addProvider 2. -/
def s1 : Cs := (addProvider s0 1 2).1

/-- s1 after provider 2 submits value 42 at time 100 into batch 1. -/
def s2 : Cs := (submitEncryptedData s1 2 42 100).1

/-- s2 after the owner closes batch 1. -/
def s3 : Cs := (closeBatch s2 1 1).1

/-- s3 after provider 2 requests decryption of batch 1 at time 200 and the
oracle assigns request id 7. -/
def s4 : Cs := (requestDecryptionForBatch s3 2 1 200 7).1

/-- s4 after a successful callback for request 7. -/
def s5 : Cs := (myCallback s4 7 42 true).1

/-- s2 after the owner opens batch 2 (batch 1 still open, no longer
current). -/
def sOpen2 : Cs := (openNewBatch s2 1).1

/-- s0 after the owner pauses. -/
def sPaused : Cs := (pause s0 1).1

/-- Claim C4: for every operation and every starting state, a failing call
leaves the state exactly as it was: in every function, the replay,
state-hash and proof checks (and all other precondition checks) run before
any state mutation, so every revert happens while the state is still the
input state. -/
theorem C4_failed_op_leaves_state_unchanged (s : Cs) (op : Op)
    (h : (step s op).2 ≠ none) : (step s op).1 = s := by
  cases op <;>
    simp only [step, transferOwnership, addProvider, removeProvider, pause, unpause,
      setCooldownSeconds, openNewBatch, closeBatch, submitEncryptedData,
      requestDecryptionForBatch, myCallback] at h ⊢ <;>
    split_ifs at h ⊢ <;> simp_all

theorem C4_witness :
    (step s0 (Op.pause 5)).2 ≠ none ∧ (step s0 (Op.pause 5)).1 = s0 :=
  ⟨by decide, C4_failed_op_leaves_state_unchanged s0 (Op.pause 5) (by decide)⟩

/-- Claim C1: a request is finalized at most once.  A successful callback
marks the request processed; a callback on a processed request fails with
ReplayAttempt whatever the cleartext, proof or state hash; and processed
persists across every operation except a request-issuing call that reuses
the same oracle-assigned id (oracle ids are unique, so that never
happens). -/
theorem C1_replay_protection :
    (∀ s rid cl pf, (myCallback s rid cl pf).2 = none →
        ((myCallback s rid cl pf).1.decryptionContexts rid).processed = true)
    ∧ (∀ s rid cl pf, (s.decryptionContexts rid).processed = true →
        (myCallback s rid cl pf).2 = some Err.ReplayAttempt)
    ∧ (∀ s op rid, (s.decryptionContexts rid).processed = true →
        (∀ c b t, op ≠ Op.requestDecryptionForBatch c b t rid) →
        ((step s op).1.decryptionContexts rid).processed = true) := by
  refine ⟨?_, ?_, ?_⟩
  · intro s rid cl pf h
    simp only [myCallback] at h ⊢
    split_ifs at h ⊢
    all_goals simp_all [upd]
  · intro s rid cl pf h
    simp [myCallback, h]
  · intro s op rid h hne
    cases op with
    | requestDecryptionForBatch c b t r =>
        have hr : rid ≠ r := by
          intro he
          exact hne c b t (by rw [he])
        simp only [step, requestDecryptionForBatch]
        split_ifs <;> simp_all [upd]
    | myCallback r cl p =>
        simp only [step, myCallback]
        split_ifs <;> simp only [upd] <;>
          first
            | exact h
            | (split_ifs <;> simp_all)
    | _ =>
        simp only [step, transferOwnership, addProvider, removeProvider, pause, unpause,
          setCooldownSeconds, openNewBatch, closeBatch, submitEncryptedData]
        split_ifs <;> simp_all

theorem C1_witness :
    ((myCallback s4 7 42 true).2 = none
      ∧ ((myCallback s4 7 42 true).1.decryptionContexts 7).processed = true)
    ∧ ((s5.decryptionContexts 7).processed = true
      ∧ (myCallback s5 7 0 false).2 = some Err.ReplayAttempt)
    ∧ ((s5.decryptionContexts 7).processed = true
      ∧ ((step s5 (Op.submitEncryptedData 2 9 300)).1.decryptionContexts 7).processed
          = true) :=
  ⟨⟨by decide, C1_replay_protection.1 s4 7 42 true (by decide)⟩,
    ⟨by decide, C1_replay_protection.2.1 s5 7 0 false (by decide)⟩,
    ⟨by decide,
      C1_replay_protection.2.2 s5 (Op.submitEncryptedData 2 9 300) 7 (by decide)
        (fun c b t h => nomatch h)⟩⟩

/-- Claim C2: the state hash stored at request time is
keccak256(abi.encode([handle of the batch], address(this))), and the
callback, on a not-yet-processed request, fails with StateMismatch exactly
when the hash recomputed over the current ciphertext of the stored batchId
differs from the stored hash. -/
theorem C2_state_hash_binding :
    (∀ s c b t rid, (requestDecryptionForBatch s c b t rid).2 = none →
        ((requestDecryptionForBatch s c b t rid).1.decryptionContexts rid).batchId = b
        ∧ ((requestDecryptionForBatch s c b t rid).1.decryptionContexts rid).stateHash
            = B32.keccakEnc [s.encryptedData b] s.selfAddr)
    ∧ (∀ s rid cl pf, (s.decryptionContexts rid).processed = false →
        ((myCallback s rid cl pf).2 = some Err.StateMismatch
          ↔ B32.keccakEnc [s.encryptedData (s.decryptionContexts rid).batchId] s.selfAddr
              ≠ (s.decryptionContexts rid).stateHash)) := by
  constructor
  · intro s c b t rid h
    simp only [requestDecryptionForBatch] at h ⊢
    split_ifs at h ⊢
    all_goals simp_all [upd, hashCiphertexts]
  · intro s rid cl pf h
    simp only [myCallback, hashCiphertexts, h]
    split_ifs <;> simp_all

theorem C2_witness :
    ((requestDecryptionForBatch s3 2 1 200 7).2 = none
      ∧ ((requestDecryptionForBatch s3 2 1 200 7).1.decryptionContexts 7).batchId = 1
      ∧ ((requestDecryptionForBatch s3 2 1 200 7).1.decryptionContexts 7).stateHash
          = B32.keccakEnc [s3.encryptedData 1] s3.selfAddr)
    ∧ ((s4.decryptionContexts 7).processed = false
      ∧ ((myCallback s4 7 0 true).2 = some Err.StateMismatch
          ↔ B32.keccakEnc [s4.encryptedData (s4.decryptionContexts 7).batchId] s4.selfAddr
              ≠ (s4.decryptionContexts 7).stateHash)) :=
  ⟨⟨by decide, C2_state_hash_binding.1 s3 2 1 200 7 (by decide)⟩,
    ⟨by decide, C2_state_hash_binding.2 s4 7 0 true (by decide)⟩⟩

/-- Claim C3 counterexample: at the freshly deployed state, request id 7
was never stored, yet the callback does not fail with ReplayAttempt (it
fails with StateMismatch), refuting the claim as stated. -/
theorem C3_counterexample :
    s0.decryptionContexts 7 = ⟨0, B32.word 0, false⟩
    ∧ (myCallback s0 7 0 true).2 ≠ some Err.ReplayAttempt := by
  decide

/-- Claim C3 (amended): calling the callback with a requestId for which no
request was ever stored (the mapping still holds the default context)
fails with StateMismatch, not ReplayAttempt: the default processed flag is
false, so the replay check passes, and the default zero state hash can
never equal a recomputed keccak256 hash. -/
theorem C3_unknown_request_state_mismatch (s : Cs) (rid cl : Nat) (pf : Bool)
    (h : s.decryptionContexts rid = ⟨0, B32.word 0, false⟩) :
    (myCallback s rid cl pf).2 = some Err.StateMismatch := by
  simp [myCallback, h, hashCiphertexts]

theorem C3_witness :
    s0.decryptionContexts 7 = ⟨0, B32.word 0, false⟩
    ∧ (myCallback s0 7 0 true).2 = some Err.StateMismatch :=
  ⟨by decide, C3_unknown_request_state_mismatch s0 7 0 true (by decide)⟩

/-- Claim C5: requestDecryptionForBatch, called by a provider while not
paused, fails with CooldownActive when the per-principal decryption
cooldown (on lastDecryptionRequestTime, independent of
lastSubmissionTime) has not elapsed; otherwise fails with InvalidBatchId
when the batch id is 0, above the counter, or still open; otherwise
records the request time and stores the context (batchId, stateHash,
processed false) under the oracle-assigned request id, emitting the
request event. -/
theorem C5_requestDecryption_spec (s : Cs) (c b t rid : Nat)
    (hp : s.isProvider c = true) (hnp : s.paused = false) :
    (t < s.lastDecryptionRequestTime c + s.cooldownSeconds →
        (requestDecryptionForBatch s c b t rid).2 = some Err.CooldownActive)
    ∧ (s.lastDecryptionRequestTime c + s.cooldownSeconds ≤ t →
        (b = 0 ∨ s.currentBatchId < b ∨ s.batchClosed b = false) →
        (requestDecryptionForBatch s c b t rid).2 = some Err.InvalidBatchId)
    ∧ (s.lastDecryptionRequestTime c + s.cooldownSeconds ≤ t →
        b ≠ 0 → b ≤ s.currentBatchId → s.batchClosed b = true →
        (requestDecryptionForBatch s c b t rid).2 = none
        ∧ (requestDecryptionForBatch s c b t rid).1.lastDecryptionRequestTime c = t
        ∧ (requestDecryptionForBatch s c b t rid).1.decryptionContexts rid
            = ⟨b, B32.keccakEnc [s.encryptedData b] s.selfAddr, false⟩
        ∧ (requestDecryptionForBatch s c b t rid).1.events
            = s.events ++ [Event.DecryptionRequested rid b])
    ∧ (∀ f, (requestDecryptionForBatch { s with lastSubmissionTime := f } c b t rid).2
        = (requestDecryptionForBatch s c b t rid).2) := by
  refine ⟨?_, ?_, ?_, ?_⟩
  · intro h
    simp [requestDecryptionForBatch, hp, hnp, h]
  · intro h1 h2
    simp [requestDecryptionForBatch, hp, hnp, Nat.not_lt.2 h1, h2]
  · intro h1 hb0 hble hcl
    have h4 : ¬ (b = 0 ∨ s.currentBatchId < b ∨ s.batchClosed b = false) := by
      rintro (h | h | h)
      · exact hb0 h
      · exact Nat.not_lt.2 hble h
      · rw [hcl] at h
        exact Bool.noConfusion h
    simp [requestDecryptionForBatch, hp, hnp, Nat.not_lt.2 h1, h4, upd, hashCiphertexts]
  · intro f
    simp only [requestDecryptionForBatch]
    split_ifs <;> rfl

theorem C5_witness :
    (s3.isProvider 2 = true ∧ s3.paused = false)
    ∧ (10 < s3.lastDecryptionRequestTime 2 + s3.cooldownSeconds
      ∧ (requestDecryptionForBatch s3 2 1 10 7).2 = some Err.CooldownActive)
    ∧ (requestDecryptionForBatch s3 2 2 200 7).2 = some Err.InvalidBatchId
    ∧ ((requestDecryptionForBatch s3 2 1 200 7).2 = none
      ∧ (requestDecryptionForBatch s3 2 1 200 7).1.lastDecryptionRequestTime 2 = 200
      ∧ (requestDecryptionForBatch s3 2 1 200 7).1.decryptionContexts 7
          = ⟨1, B32.keccakEnc [s3.encryptedData 1] s3.selfAddr, false⟩
      ∧ (requestDecryptionForBatch s3 2 1 200 7).1.events
          = s3.events ++ [Event.DecryptionRequested 7 1]) :=
  ⟨⟨by decide, by decide⟩,
    ⟨by decide,
      (C5_requestDecryption_spec s3 2 1 10 7 (by decide) (by decide)).1 (by decide)⟩,
    (C5_requestDecryption_spec s3 2 2 200 7 (by decide) (by decide)).2.1 (by decide)
      (by decide),
    (C5_requestDecryption_spec s3 2 1 200 7 (by decide) (by decide)).2.2.1 (by decide)
      (by decide) (by decide) (by decide)⟩

/-- Claim C6: submitEncryptedData, called by a provider while not paused,
fails with CooldownActive exactly when now is before the last submission
time plus the cooldown; with the cooldown elapsed it fails with
BatchClosedOrInvalid when the current batch is closed, and otherwise
records now as the last-submission time, overwrites the current batch
slot, and emits the DataSubmitted event; consequently a second submit by
the same principal at least cooldownSeconds after a successful one is not
throttled. -/
theorem C6_submit_spec (s : Cs) (c v t : Nat)
    (hp : s.isProvider c = true) (hnp : s.paused = false) :
    ((submitEncryptedData s c v t).2 = some Err.CooldownActive
        ↔ t < s.lastSubmissionTime c + s.cooldownSeconds)
    ∧ (s.lastSubmissionTime c + s.cooldownSeconds ≤ t →
        s.batchClosed s.currentBatchId = true →
        (submitEncryptedData s c v t).2 = some Err.BatchClosedOrInvalid)
    ∧ (s.lastSubmissionTime c + s.cooldownSeconds ≤ t →
        s.batchClosed s.currentBatchId = false →
        (submitEncryptedData s c v t).2 = none
        ∧ (submitEncryptedData s c v t).1.lastSubmissionTime c = t
        ∧ (submitEncryptedData s c v t).1.encryptedData s.currentBatchId = v
        ∧ (submitEncryptedData s c v t).1.events
            = s.events ++ [Event.DataSubmitted c s.currentBatchId v])
    ∧ (∀ v2 t2, (submitEncryptedData s c v t).2 = none →
        t + s.cooldownSeconds ≤ t2 →
        (submitEncryptedData (submitEncryptedData s c v t).1 c v2 t2).2
          ≠ some Err.CooldownActive) := by
  refine ⟨?_, ?_, ?_, ?_⟩
  · constructor
    · intro h
      by_cases hcd : t < s.lastSubmissionTime c + s.cooldownSeconds
      · exact hcd
      · simp only [submitEncryptedData, hp, hnp, hcd] at h
        split_ifs at h <;> simp_all
    · intro h
      simp [submitEncryptedData, hp, hnp, h]
  · intro h1 h2
    simp [submitEncryptedData, hp, hnp, Nat.not_lt.2 h1, h2]
  · intro h1 h2
    simp [submitEncryptedData, hp, hnp, Nat.not_lt.2 h1, h2, upd]
  · intro v2 t2 hsucc hsep
    simp only [submitEncryptedData] at hsucc
    split_ifs at hsucc with g1 g2 g3 g4
    have hst : (submitEncryptedData s c v t).1
        = { s with
            lastSubmissionTime := upd s.lastSubmissionTime c t
            encryptedData := upd s.encryptedData s.currentBatchId v
            events := s.events ++ [Event.DataSubmitted c s.currentBatchId v] } := by
      simp only [submitEncryptedData, if_neg g1, if_neg g2, if_neg g3, if_neg g4]
    rw [hst]
    simp only [submitEncryptedData]
    split_ifs with k1 <;>
      first
        | (simp; done)
        | (exfalso; simp [upd] at k1; omega)

theorem C6_witness :
    (s1.isProvider 2 = true ∧ s1.paused = false)
    ∧ ((submitEncryptedData s1 2 42 10).2 = some Err.CooldownActive
        ↔ 10 < s1.lastSubmissionTime 2 + s1.cooldownSeconds)
    ∧ (submitEncryptedData s3 2 9 300).2 = some Err.BatchClosedOrInvalid
    ∧ ((submitEncryptedData s1 2 42 100).2 = none
      ∧ (submitEncryptedData s1 2 42 100).1.lastSubmissionTime 2 = 100
      ∧ (submitEncryptedData s1 2 42 100).1.encryptedData s1.currentBatchId = 42
      ∧ (submitEncryptedData s1 2 42 100).1.events
          = s1.events ++ [Event.DataSubmitted 2 s1.currentBatchId 42])
    ∧ (submitEncryptedData (submitEncryptedData s1 2 42 100).1 2 9 160).2
        ≠ some Err.CooldownActive :=
  ⟨⟨by decide, by decide⟩,
    (C6_submit_spec s1 2 42 10 (by decide) (by decide)).1,
    (C6_submit_spec s3 2 9 300 (by decide) (by decide)).2.1 (by decide) (by decide),
    (C6_submit_spec s1 2 42 100 (by decide) (by decide)).2.2.1 (by decide) (by decide),
    (C6_submit_spec s1 2 42 100 (by decide) (by decide)).2.2.2 9 160 (by decide)
      (by decide)⟩

/-- Claim C7: closeBatch, called by the owner, fails with InvalidBatchId
exactly when the id is 0, above the current counter, or already closed
(equivalently, it succeeds exactly on a not-yet-closed id between 1 and
the counter, current or not); success marks the batch closed, and a
second closeBatch on the same id then fails with InvalidBatchId. -/
theorem C7_closeBatch_spec (s : Cs) (c b : Nat) (hc : c = s.owner) :
    ((closeBatch s c b).2 = some Err.InvalidBatchId
        ↔ (b = 0 ∨ s.currentBatchId < b ∨ s.batchClosed b = true))
    ∧ ((closeBatch s c b).2 = none
        ↔ (b ≠ 0 ∧ b ≤ s.currentBatchId ∧ s.batchClosed b = false))
    ∧ ((closeBatch s c b).2 = none →
        (closeBatch s c b).1.batchClosed b = true
        ∧ (closeBatch (closeBatch s c b).1 c b).2 = some Err.InvalidBatchId) := by
  subst hc
  refine ⟨?_, ?_, ?_⟩
  · simp only [closeBatch]
    split_ifs with g1 g2 <;> simp_all
  · simp only [closeBatch]
    split_ifs with g1 g2 <;> simp_all
    intro hb0 hble
    rcases g2 with g | g | g
    · exact absurd g hb0
    · exact absurd hble (by omega)
    · exact g
  · intro h
    simp only [closeBatch] at h
    split_ifs at h with g1 g2
    have hcb : (closeBatch s s.owner b).1
        = { s with
            batchClosed := upd s.batchClosed b true
            events := s.events ++ [Event.BatchClosed b] } := by
      simp only [closeBatch, if_neg g1, if_neg g2]
    rw [hcb]
    refine ⟨by simp [upd], ?_⟩
    simp only [closeBatch]
    split_ifs with k1
    · rfl
    · exact absurd (Or.inr (Or.inr (by simp [upd]))) k1

theorem C7_witness :
    ((1 : Nat) = sOpen2.owner)
    ∧ ((closeBatch s2 1 1).2 = some Err.InvalidBatchId
        ↔ (1 = 0 ∨ s2.currentBatchId < 1 ∨ s2.batchClosed 1 = true))
    ∧ ((closeBatch sOpen2 1 1).2 = none
        ↔ (1 ≠ 0 ∧ 1 ≤ sOpen2.currentBatchId ∧ sOpen2.batchClosed 1 = false))
    ∧ ((closeBatch sOpen2 1 1).1.batchClosed 1 = true
      ∧ (closeBatch (closeBatch sOpen2 1 1).1 1 1).2 = some Err.InvalidBatchId) :=
  ⟨by decide,
    (C7_closeBatch_spec s2 1 1 (by decide)).1,
    (C7_closeBatch_spec sOpen2 1 1 (by decide)).2.1,
    (C7_closeBatch_spec sOpen2 1 1 (by decide)).2.2 (by decide)⟩

/-- Claim C8: pause and unpause are owner-only and form the two-state
machine Active/Paused: pause fails (with the contract error
PausedContract, the error the spec calls AlreadyPaused) exactly when
already paused, unpause fails (same error, the one the spec calls
NotPaused) exactly when not paused, each successful call flips the flag,
and no other operation ever changes the paused flag. -/
theorem C8_pause_state_machine :
    (∀ s c, c = s.owner →
        ((pause s c).2 = some Err.PausedContract ↔ s.paused = true)
        ∧ (s.paused = false → (pause s c).2 = none ∧ (pause s c).1.paused = true))
    ∧ (∀ s c, c = s.owner →
        ((unpause s c).2 = some Err.PausedContract ↔ s.paused = false)
        ∧ (s.paused = true → (unpause s c).2 = none ∧ (unpause s c).1.paused = false))
    ∧ (∀ s c, c ≠ s.owner →
        (pause s c).2 = some Err.NotOwner ∧ (unpause s c).2 = some Err.NotOwner)
    ∧ (∀ s op, (∀ c, op ≠ Op.pause c) → (∀ c, op ≠ Op.unpause c) →
        (step s op).1.paused = s.paused) := by
  refine ⟨?_, ?_, ?_, ?_⟩
  · intro s c hc
    subst hc
    constructor
    · simp only [pause]
      split_ifs with g1 g2 <;> simp_all
    · intro hnp
      simp [pause, hnp]
  · intro s c hc
    subst hc
    constructor
    · simp only [unpause]
      split_ifs with g1 g2 <;> simp_all
    · intro hpp
      simp [unpause, hpp]
  · intro s c hc
    constructor <;> simp [pause, unpause, hc]
  · intro s op hnp hnu
    cases op with
    | pause c => exact absurd rfl (hnp c)
    | unpause c => exact absurd rfl (hnu c)
    | _ =>
        simp only [step, transferOwnership, addProvider, removeProvider,
          setCooldownSeconds, openNewBatch, closeBatch, submitEncryptedData,
          requestDecryptionForBatch, myCallback]
        split_ifs <;> rfl

theorem C8_witness :
    ((1 : Nat) = s0.owner ∧ s0.paused = false
      ∧ (pause s0 1).2 = none ∧ (pause s0 1).1.paused = true)
    ∧ ((pause sPaused 1).2 = some Err.PausedContract ↔ sPaused.paused = true)
    ∧ (sPaused.paused = true
      ∧ (unpause sPaused 1).2 = none ∧ (unpause sPaused 1).1.paused = false)
    ∧ ((9 : Nat) ≠ s0.owner
      ∧ (pause s0 9).2 = some Err.NotOwner ∧ (unpause s0 9).2 = some Err.NotOwner)
    ∧ (step s0 (Op.closeBatch 1 1)).1.paused = s0.paused :=
  ⟨⟨by decide, by decide,
      (C8_pause_state_machine.1 s0 1 (by decide)).2 (by decide)⟩,
    (C8_pause_state_machine.1 sPaused 1 (by decide)).1,
    ⟨by decide, (C8_pause_state_machine.2.1 sPaused 1 (by decide)).2 (by decide)⟩,
    ⟨by decide, C8_pause_state_machine.2.2.1 s0 9 (by decide)⟩,
    C8_pause_state_machine.2.2.2 s0 (Op.closeBatch 1 1)
      (fun c h => nomatch h) (fun c h => nomatch h)⟩

/-- Claim C9: the encrypted slot of a batch can change only when that
batch is the current open batch and the operation is a submit;
consequently once a batch is closed its stored ciphertext (and its closed
flag) never change under any operation. -/
theorem C9_closed_batch_immutable :
    (∀ s op b, (step s op).1.encryptedData b ≠ s.encryptedData b →
        b = s.currentBatchId ∧ s.batchClosed b = false
        ∧ ∃ c v t, op = Op.submitEncryptedData c v t)
    ∧ (∀ s op b, s.batchClosed b = true →
        (step s op).1.encryptedData b = s.encryptedData b
        ∧ (step s op).1.batchClosed b = true) := by
  constructor
  · intro s op b hne
    cases op with
    | submitEncryptedData c v t =>
        simp only [step, submitEncryptedData] at hne
        split_ifs at hne with g1 g2 g3 g4
        · exact absurd rfl hne
        · exact absurd rfl hne
        · exact absurd rfl hne
        · exact absurd rfl hne
        · simp only [upd] at hne
          split_ifs at hne with hb
          · subst hb
            exact ⟨rfl, by simpa using g4, c, v, t, rfl⟩
          · exact absurd rfl hne
    | _ =>
        exfalso
        apply hne
        simp only [step, transferOwnership, addProvider, removeProvider, pause,
          unpause, setCooldownSeconds, openNewBatch, closeBatch,
          requestDecryptionForBatch, myCallback]
        split_ifs <;> rfl
  · intro s op b hcl
    cases op with
    | submitEncryptedData c v t =>
        simp only [step, submitEncryptedData]
        split_ifs with g1 g2 g3 g4 <;>
          first
            | exact ⟨rfl, hcl⟩
            | (refine ⟨?_, hcl⟩
               simp only [upd]
               split_ifs with hb
               · subst hb
                 exact absurd hcl (by simpa using g4)
               · rfl)
    | closeBatch c b2 =>
        simp only [step, closeBatch]
        split_ifs <;>
          first
            | exact ⟨rfl, hcl⟩
            | (refine ⟨rfl, ?_⟩
               simp only [upd]
               split_ifs <;> simp_all)
    | _ =>
        simp only [step, transferOwnership, addProvider, removeProvider, pause,
          unpause, setCooldownSeconds, openNewBatch,
          requestDecryptionForBatch, myCallback]
        split_ifs <;> exact ⟨rfl, hcl⟩

theorem C9_witness :
    ((step s1 (Op.submitEncryptedData 2 42 100)).1.encryptedData 1 ≠ s1.encryptedData 1
      ∧ (1 = s1.currentBatchId ∧ s1.batchClosed 1 = false
        ∧ ∃ c v t, Op.submitEncryptedData 2 42 100 = Op.submitEncryptedData c v t))
    ∧ (s3.batchClosed 1 = true
      ∧ ((step s3 (Op.submitEncryptedData 2 9 300)).1.encryptedData 1
            = s3.encryptedData 1
        ∧ (step s3 (Op.submitEncryptedData 2 9 300)).1.batchClosed 1 = true)) :=
  ⟨⟨by decide,
      C9_closed_batch_immutable.1 s1 (Op.submitEncryptedData 2 42 100) 1 (by decide)⟩,
    ⟨by decide,
      C9_closed_batch_immutable.2 s3 (Op.submitEncryptedData 2 9 300) 1 (by decide)⟩⟩

/-- Claim C10: transferOwnership by the owner validates nothing about the
new owner: for every address, the zero address and the current owner
included, the call succeeds at once, makes that address the owner, emits
the transfer event, and (when the new owner differs from the caller)
every owner-only operation attempted afterwards by the previous owner
fails with NotOwner. -/
theorem C10_transferOwnership_spec (s : Cs) (c n : Nat) (hc : c = s.owner) :
    (transferOwnership s c n).2 = none
    ∧ (transferOwnership s c n).1.owner = n
    ∧ (transferOwnership s c n).1.events
        = s.events ++ [Event.OwnershipTransferred s.owner n]
    ∧ (n ≠ c →
        (∀ z, (transferOwnership (transferOwnership s c n).1 c z).2
            = some Err.NotOwner)
        ∧ (∀ p, (addProvider (transferOwnership s c n).1 c p).2 = some Err.NotOwner)
        ∧ (∀ p, (removeProvider (transferOwnership s c n).1 c p).2
            = some Err.NotOwner)
        ∧ (pause (transferOwnership s c n).1 c).2 = some Err.NotOwner
        ∧ (unpause (transferOwnership s c n).1 c).2 = some Err.NotOwner
        ∧ (∀ k, (setCooldownSeconds (transferOwnership s c n).1 c k).2
            = some Err.NotOwner)
        ∧ (openNewBatch (transferOwnership s c n).1 c).2 = some Err.NotOwner
        ∧ (∀ b, (closeBatch (transferOwnership s c n).1 c b).2
            = some Err.NotOwner)) := by
  subst hc
  have hto : transferOwnership s s.owner n
      = ({ s with
            events := s.events ++ [Event.OwnershipTransferred s.owner n]
            owner := n }, none) := by
    simp [transferOwnership]
  refine ⟨by rw [hto], by rw [hto], by rw [hto], ?_⟩
  intro hn
  rw [hto]
  refine ⟨?_, ?_, ?_, ?_, ?_, ?_, ?_, ?_⟩ <;>
    first
      | (intro z
         simp [transferOwnership, addProvider, removeProvider, setCooldownSeconds,
           closeBatch, Ne.symm hn])
      | simp [pause, unpause, openNewBatch, Ne.symm hn]

theorem C10_witness :
    ((1 : Nat) = s0.owner ∧ (0 : Nat) ≠ 1)
    ∧ (transferOwnership s0 1 0).2 = none
    ∧ (transferOwnership s0 1 0).1.owner = 0
    ∧ (transferOwnership s0 1 0).1.events
        = s0.events ++ [Event.OwnershipTransferred s0.owner 0]
    ∧ (transferOwnership (transferOwnership s0 1 0).1 1 5).2 = some Err.NotOwner
    ∧ (pause (transferOwnership s0 1 0).1 1).2 = some Err.NotOwner :=
  ⟨⟨by decide, by decide⟩,
    (C10_transferOwnership_spec s0 1 0 (by decide)).1,
    (C10_transferOwnership_spec s0 1 0 (by decide)).2.1,
    (C10_transferOwnership_spec s0 1 0 (by decide)).2.2.1,
    ((C10_transferOwnership_spec s0 1 0 (by decide)).2.2.2 (by decide)).1 5,
    ((C10_transferOwnership_spec s0 1 0 (by decide)).2.2.2 (by decide)).2.2.2.1⟩

end DbFHE
